import Mathlib

/-!
Shallow embedding of the `apihunter` repository (src/api_hunter/core.py,
src/api_hunter/scanner.py) for checking its natural-language specification.

Conventions of the embedding:
* Python `float` confidence values are modelled as exact rationals (`ℚ`);
  all confidence arithmetic in the source uses small decimal constants and
  the spec reasons about them as exact reals, so IEEE rounding is abstracted.
* `requests` calls are modelled by explicit outcome values: `FetchResult`
  for a GET (a response with status / content-type / body, or a raised
  `requests.RequestException`), and `ProbeResult` for a HEAD probe.
* HTML/regex/JSON parsing performed by third-party libraries
  (BeautifulSoup, `re`, `json`) is modelled by passing the parsed artefacts
  (form tags, regex matches, a decoded Swagger document) as inputs to the
  extraction functions, which are translated from the source line by line.
-/

/-- Embeds the `APIEndpoint` dataclass of core.py: url, method, parameter
names, headers, source tag and confidence score. Python's `float` is
modelled as `ℚ`; the `Dict[str, str]` of headers as an association list. -/
structure APIEndpoint where
  url : String
  method : String
  parameters : List String
  headers : List (String × String)
  source : String
  confidence : ℚ
deriving DecidableEq, Repr

/-- Embeds dataclass construction together with `__post_init__`: the
`parameters` and `headers` arguments may be `None` (here `none`), in which
case they are replaced by an empty list / empty dict. -/
def mkAPIEndpoint (url method : String) (parameters : Option (List String))
    (headers : Option (List (String × String))) (source : String)
    (confidence : ℚ) : APIEndpoint :=
  { url := url
    method := method
    parameters := parameters.getD []
    headers := headers.getD []
    source := source
    confidence := confidence }

/-- The `(endpoint.url, endpoint.method)` key used by `_deduplicate_endpoints`. -/
def dedupKey (e : APIEndpoint) : String × String := (e.url, e.method)

/-- The loop body of `_deduplicate_endpoints` (core.py 303-314): walk the
list front to back, keep an endpoint only when its `(url, method)` key has
not been seen yet. The `seen` set is modelled as the list of keys kept so
far. -/
def dedupGo (seen : List (String × String)) :
    List APIEndpoint → List APIEndpoint
  | [] => []
  | e :: rest =>
    if dedupKey e ∈ seen then dedupGo seen rest
    else e :: dedupGo (dedupKey e :: seen) rest

/-- Embeds `_deduplicate_endpoints` of core.py. -/
def deduplicateEndpoints (endpoints : List APIEndpoint) : List APIEndpoint :=
  dedupGo [] endpoints

/-- Outcome of a `session.head` probe in `_validate_endpoints` /
`_test_endpoint`: either a response (with status code and lower-cased
`content-type` header value) or a raised `requests.RequestException`
(connection failure or timeout). Note that in `requests` a response with
status ≥ 400 is returned normally and does not raise. -/
inductive ProbeResult where
  | response (status : Nat) (contentType : String)
  | requestException
deriving DecidableEq, Repr

/-- Executable contiguous-sublist test, modelling Python's `in` operator
on strings (character lists). -/
def charsContain (needle : List Char) : List Char → Bool
  | [] => needle.isEmpty
  | c :: cs => needle.isPrefixOf (c :: cs) || charsContain needle cs

/-- Python's `needle in hay` on strings. -/
def strContains (hay needle : String) : Bool :=
  charsContain needle.data hay.data

/-- Python's `s.startswith(pre)`. -/
def strStartsWith (s pre : String) : Bool :=
  pre.data.isPrefixOf s.data

/-- ASCII lower-casing of one character; all strings handled by this
program are ASCII, where Python's `str.lower` coincides with this map. -/
def asciiLower (c : Char) : Char :=
  if 'A' ≤ c ∧ c ≤ 'Z' then Char.ofNat (c.toNat + 32) else c

/-- ASCII upper-casing of one character (Python's `str.upper` on ASCII). -/
def asciiUpper (c : Char) : Char :=
  if 'a' ≤ c ∧ c ≤ 'z' then Char.ofNat (c.toNat - 32) else c

/-- Python's `s.lower()` (ASCII). -/
def strLower (s : String) : String := String.mk (s.data.map asciiLower)

/-- Python's `s.upper()` (ASCII). -/
def strUpper (s : String) : String := String.mk (s.data.map asciiUpper)

/-- The characters Python's `str.strip()` removes. -/
def pyWhitespace (c : Char) : Bool :=
  c = ' ' || c = '\t' || c = '\n' || c = '\r' || c = '\x0b' || c = '\x0c'

/-- Python's `s.strip()`: whitespace removed from both ends. -/
def strTrim (s : String) : String :=
  String.mk
    (((s.data.dropWhile pyWhitespace).reverse.dropWhile pyWhitespace).reverse)

/-- Worker for `strSplitOn`: scan for the (non-empty) separator
`s0 :: srest`, emitting the piece accumulated in `acc` at each occurrence.
Structural recursion on a fuel counter (each step consumes at least one
character, so fuel `s.length` never runs out; the fuel-exhausted fallback
returns the remaining input as the final piece). -/
def splitGo (s0 : Char) (srest : List Char) :
    Nat → List Char → List Char → List (List Char)
  | _, [], acc => [acc.reverse]
  | 0, s, acc => [acc.reverse ++ s]
  | fuel + 1, c :: cs, acc =>
    if (s0 :: srest).isPrefixOf (c :: cs) then
      acc.reverse :: splitGo s0 srest fuel (cs.drop srest.length) []
    else
      splitGo s0 srest fuel cs (c :: acc)

/-- Python's `s.split(sep)` for a non-empty separator (Python raises on an
empty one; the source only splits on a fixed two-character literal). -/
def strSplitOn (s sep : String) : List String :=
  match sep.data with
  | [] => [s]
  | c :: cs => (splitGo c cs s.data.length s.data []).map String.mk

/-- Embeds the test `any(ct in content_type for ct in ['json','xml','api'])`
applied to the lower-cased content-type header (core.py 330-331,
scanner.py 162-165). -/
def hasApiContentType (contentType : String) : Bool :=
  ["json", "xml", "api"].any (fun ct => strContains (strLower contentType) ct)

/-- Embeds the confidence update of one loop iteration of
`_validate_endpoints` (core.py 320-339): on a response with status < 400,
confidence is bumped by 0.2 (clamped to 1.0) and by a further 0.1 (clamped)
when the content-type carries an API indicator; on a response with status
≥ 400 the confidence is left untouched; on a `RequestException` it is
demoted by 0.3 with floor 0.1. -/
def validateAdjust (probe : ProbeResult) (confidence : ℚ) : ℚ :=
  match probe with
  | .response status contentType =>
    if status < 400 then
      let bumped := min (confidence + 2/10) 1
      if hasApiContentType contentType then min (bumped + 1/10) 1 else bumped
    else confidence
  | .requestException => max (confidence - 3/10) (1/10)

/-- Embeds `_validate_endpoints` (core.py 316-344): every endpoint is kept
and its confidence adjusted according to the probe outcome `probeOf` for
it. -/
def validateEndpoints (probeOf : APIEndpoint → ProbeResult)
    (endpoints : List APIEndpoint) : List APIEndpoint :=
  endpoints.map (fun e =>
    { e with confidence := validateAdjust (probeOf e) e.confidence })

/-- Embeds Python's `base_url.rstrip('/')`: drop trailing slashes. -/
def rstripSlash (s : String) : String :=
  String.mk ((s.data.reverse.dropWhile (fun c => c = '/')).reverse)

/-- Characters allowed after the first letter of a URL scheme
(RFC 3986 / urllib.parse). -/
def isSchemeChar (c : Char) : Bool :=
  c.isAlphanum || c = '+' || c = '-' || c = '.'

/-- Extracts the scheme of a URL the way `urllib.parse` does: the maximal
leading run of scheme characters starting with a letter and followed by a
colon, lower-cased; `none` when the URL has no scheme. -/
def schemeOf (url : String) : Option String :=
  match url.data.takeWhile (fun c => c ≠ ':') with
  | [] => none
  | c :: cs =>
    if c.isAlpha ∧ cs.all isSchemeChar ∧ (c :: cs).length < url.data.length
    then some (strLower (String.mk (c :: cs)))
    else none

/-- Model of `urllib.parse.urljoin` at the fidelity the claims need: an
empty candidate returns the base; a candidate carrying its own scheme is
returned unchanged (true in urllib both for schemes outside `uses_relative`,
e.g. `javascript:` and `mailto:`, and for absolute http(s) URLs with a
netloc, which replace the base); a root-relative or relative path is
resolved against the base by concatenation. The path-merging subtleties of
RFC 3986 for same-scheme netloc-less references are not exercised by any
claim. -/
def urljoin (base url : String) : String :=
  if url = "" then base
  else
    match schemeOf url with
    | some _ => url
    | none =>
      if strStartsWith url "/" then rstripSlash base ++ url
      else rstripSlash base ++ "/" ++ url

/-- The `api_indicators` list of `_is_potential_endpoint` (core.py 295-298). -/
def apiIndicators : List String :=
  ["api", "rest", "graphql", "endpoint", "service",
   "json", "xml", "data", "ajax", "fetch"]

/-- Embeds `_is_potential_endpoint` (core.py 288-301): empty URLs and
`javascript:` / `mailto:` pseudo-scheme URLs are rejected; otherwise the
URL qualifies iff its lower-casing contains an API indicator substring. -/
def isPotentialEndpoint (url : String) : Bool :=
  if url = "" || strStartsWith url "javascript:" || strStartsWith url "mailto:"
  then false
  else apiIndicators.any (fun ind => strContains (strLower url) ind)

/-- A `<form>` tag as BeautifulSoup delivers it to `_discover_from_forms`:
its `action` and `method` attributes (with the source's defaults `''` and
`'GET'` already applied by `form.get`) and the `name` attributes of its
input/select/textarea children. -/
structure FormTag where
  action : String
  method : String
  inputNames : List String
deriving DecidableEq, Repr

/-- Embeds `_discover_from_forms` (core.py 153-180): every form with a
non-empty `action` yields an endpoint at the joined URL with the form's
upper-cased method, its input names as parameters, source `html_form` and
confidence 0.6. No `_is_potential_endpoint` filter is applied here. -/
def formEndpoint (baseUrl : String) (f : FormTag) : Option APIEndpoint :=
  if f.action = "" then none
  else some
    { url := urljoin baseUrl f.action
      method := strUpper f.method
      parameters := f.inputNames
      headers := []
      source := "html_form"
      confidence := 6/10 }

def discoverFromForms (baseUrl : String) (forms : List FormTag) :
    List APIEndpoint :=
  forms.filterMap (formEndpoint baseUrl)

/-- One regex match of the fetch/XHR patterns in `_discover_from_scripts`:
a captured method (empty string when the pattern captured only a URL, in
which case the source falls back to GET) and a captured URL. -/
structure ScriptMatch where
  capturedMethod : String
  capturedUrl : String
deriving DecidableEq, Repr

/-- Embeds the per-match body of `_discover_from_scripts` (core.py
118-151): join the captured URL against the base, keep it only when
`_is_potential_endpoint` accepts the joined URL, and emit it with the
upper-cased captured method (GET when none was captured), source
`javascript`, confidence 0.8. -/
def scriptEndpoint (baseUrl : String) (m : ScriptMatch) :
    Option APIEndpoint :=
  if isPotentialEndpoint (urljoin baseUrl m.capturedUrl) then
    some
      { url := urljoin baseUrl m.capturedUrl
        method := if m.capturedMethod = "" then "GET"
                  else strUpper m.capturedMethod
        parameters := []
        headers := []
        source := "javascript"
        confidence := 8/10 }
  else none

def discoverFromScripts (baseUrl : String) (scriptMatches : List ScriptMatch) :
    List APIEndpoint :=
  scriptMatches.filterMap (scriptEndpoint baseUrl)

/-- Embeds the per-match body of `_discover_from_ajax_calls` (core.py
182-215): each regex-captured URL is joined against the base and kept when
`_is_potential_endpoint` accepts the joined URL, at source `ajax_call`,
confidence 0.9. -/
def ajaxEndpoint (baseUrl : String) (u : String) : Option APIEndpoint :=
  if isPotentialEndpoint (urljoin baseUrl u) then
    some
      { url := urljoin baseUrl u
        method := "GET"
        parameters := []
        headers := []
        source := "ajax_call"
        confidence := 9/10 }
  else none

def discoverFromAjaxCalls (baseUrl : String) (capturedUrls : List String) :
    List APIEndpoint :=
  capturedUrls.filterMap (ajaxEndpoint baseUrl)

/-- Outcome of a `session.get` call: a response (status code, content-type
header value, body text) or a raised `requests.RequestException`
(connection failure, timeout). `raise_for_status` turns an HTTP error
status of a received response into an exception where the source calls it. -/
inductive FetchResult where
  | response (status : Nat) (contentType : String) (body : String)
  | requestException
deriving DecidableEq, Repr

/-- The `api_indicators` list of `_looks_like_api_path` (scanner.py
177-185); compared with `apiIndicators` of core.py it also has `webhook`. -/
def scannerApiIndicators : List String :=
  ["api", "rest", "graphql", "endpoint", "service",
   "json", "xml", "data", "ajax", "fetch", "webhook"]

/-- Embeds `_looks_like_api_path` (scanner.py 177-185). -/
def looksLikeApiPath (path : String) : Bool :=
  scannerApiIndicators.any (fun ind => strContains (strLower path) ind)

/-- Python's `s.split(sep, 1)[1]` for `sep = ':'` when a colon is present:
everything after the first colon (empty when there is none, a case the
caller rules out). -/
def afterFirstColon (s : String) : String :=
  String.mk ((s.data.dropWhile (fun c => c ≠ ':')).drop 1)

/-- Embeds the per-line body of `scan_robots_txt` (scanner.py 54-64): a
line whose stripped form starts with `Disallow:` or `Allow:` and whose
stripped value after the first colon passes `_looks_like_api_path` yields
an endpoint at `base_url.rstrip('/') + path`, source `robots_txt`,
confidence 0.6. -/
def robotsLine (baseUrl line : String) : Option APIEndpoint :=
  if strStartsWith (strTrim line) "Disallow:" || strStartsWith (strTrim line) "Allow:" then
    let path := strTrim (afterFirstColon line)
    if looksLikeApiPath path then
      some
        { url := rstripSlash baseUrl ++ path
          method := "GET"
          parameters := []
          headers := []
          source := "robots_txt"
          confidence := 6/10 }
    else none
  else none

/-- Embeds `scan_robots_txt` (scanner.py 45-68) faithfully to the source
text: the body is split on the two-character literal `\n` (the source says
`response.text.split('\\n')`, a backslash followed by `n`, NOT the newline
character), each piece is run through the directive test, and any
exception yields `[]`. Only a 200 response is scanned. -/
def scanRobotsTxt (baseUrl : String) (fetch : FetchResult) :
    List APIEndpoint :=
  match fetch with
  | .requestException => []
  | .response status _ body =>
    if status = 200 then
      (strSplitOn body "\\n").filterMap (robotsLine baseUrl)
    else []

/-- What `scan_robots_txt` was evidently meant to do and what the spec
describes: split the body on the newline character and scan each real
line. Kept separate from `scanRobotsTxt`, which follows the source. -/
def scanRobotsTxtIntended (baseUrl : String) (fetch : FetchResult) :
    List APIEndpoint :=
  match fetch with
  | .requestException => []
  | .response status _ body =>
    if status = 200 then
      (strSplitOn body "\n").filterMap (robotsLine baseUrl)
    else []

/-- A decoded Swagger/OpenAPI JSON document as `response.json()` hands it
to `discover_swagger_docs`: its optional `basePath` (default `''` via
`.get`) and its `paths` map, each path key with the list of method keys
under it. -/
structure SwaggerDoc where
  basePath : String
  paths : List (String × List String)
deriving DecidableEq, Repr

/-- Embeds the `paths` loop of `discover_swagger_docs` (scanner.py
138-149): one endpoint per declared path/method pair, at
`base_url.rstrip('/') + basePath + path`, upper-cased method, source
`swagger_spec`, confidence 1.0. -/
def swaggerSpecEndpoints (baseUrl : String) (doc : SwaggerDoc) :
    List APIEndpoint :=
  doc.paths.flatMap (fun pk =>
    pk.2.map (fun m =>
      { url := rstripSlash baseUrl ++ doc.basePath ++ pk.1
        method := strUpper m
        parameters := []
        headers := []
        source := "swagger_spec"
        confidence := 1 }))

/-- Embeds the per-path body of `discover_swagger_docs` (scanner.py
122-153) for one candidate documentation path: a 200 response yields a
`swagger_docs` endpoint at confidence 0.9, and additionally, when the path
contains `json`, the content-type starts with `application/json` and the
body decodes to a JSON object with a `paths` key (modelled by
`parsed = some doc`), the declared spec endpoints. Any exception yields
`[]`. -/
def discoverSwaggerAt (baseUrl path : String) (fetch : FetchResult)
    (parsed : Option SwaggerDoc) : List APIEndpoint :=
  match fetch with
  | .requestException => []
  | .response status contentType _ =>
    if status = 200 then
      { url := rstripSlash baseUrl ++ path
        method := "GET"
        parameters := []
        headers := []
        source := "swagger_docs"
        confidence := 9/10 } ::
      (if strContains path "json" ∧ strStartsWith contentType "application/json"
       then
         match parsed with
         | some doc => swaggerSpecEndpoints baseUrl doc
         | none => []
       else [])
    else []

/-- The `common_paths` list of `EndpointScanner` (scanner.py 18-24). -/
def commonPaths : List String :=
  ["/api", "/api/v1", "/api/v2", "/rest", "/graphql",
   "/endpoints", "/services", "/data", "/ajax",
   "/client/api", "/client/api/sponds", "/client/api/events",
   "/client/api/groups", "/client/api/user", "/client/api/notifications"]

/-- Embeds `_test_endpoint` (scanner.py 157-175): a HEAD probe answering
with status < 400 yields a `path_scan` endpoint at confidence 0.8 when the
content-type carries an API indicator and 0.5 otherwise; a status ≥ 400 or
an exception yields nothing. -/
def testEndpoint (url : String) (probe : ProbeResult) :
    Option APIEndpoint :=
  match probe with
  | .requestException => none
  | .response status contentType =>
    if status < 400 then
      some
        { url := url
          method := "GET"
          parameters := []
          headers := []
          source := "path_scan"
          confidence := if hasApiContentType contentType then 8/10 else 5/10 }
    else none

/-- Embeds `scan_common_paths` (scanner.py 26-43): probe every common path
appended to the slash-stripped base and collect the successful tests. The
source runs the probes on a thread pool and collects them in completion
order; the claims are order-independent, so the probes are modelled
sequentially via the outcome oracle `probeOf`. -/
def scanCommonPaths (baseUrl : String) (probeOf : String → ProbeResult) :
    List APIEndpoint :=
  commonPaths.filterMap (fun p =>
    testEndpoint (rstripSlash baseUrl ++ p) (probeOf (rstripSlash baseUrl ++ p)))

/-- Embeds the control flow of `discover_endpoints` (core.py 55-98): fetch
the base page; a `RequestException` from the fetch — including the one
`raise_for_status` raises on a status ≥ 400 — is caught and yields `[]`;
otherwise the extraction strategies run over the body (modelled by the
oracle `extract`, the concatenation of the per-strategy results), the
candidates are deduplicated and then validated. -/
def discoverEndpoints (fetchMain : FetchResult)
    (extract : String → List APIEndpoint)
    (probeOf : APIEndpoint → ProbeResult) : List APIEndpoint :=
  match fetchMain with
  | .requestException => []
  | .response status _ body =>
    if 400 ≤ status then []
    else validateEndpoints probeOf (deduplicateEndpoints (extract body))

/-- Embeds the per-URL body of `_discover_from_comments` (core.py
246-279): each URL found inside an HTML or JavaScript comment is joined
against the base and kept when `_is_potential_endpoint` accepts the joined
URL, at source `comment`, confidence 0.4. -/
def commentEndpoint (baseUrl : String) (u : String) : Option APIEndpoint :=
  if isPotentialEndpoint (urljoin baseUrl u) then
    some
      { url := urljoin baseUrl u
        method := "GET"
        parameters := []
        headers := []
        source := "comment"
        confidence := 4/10 }
  else none

def discoverFromComments (baseUrl : String) (commentUrls : List String) :
    List APIEndpoint :=
  commentUrls.filterMap (commentEndpoint baseUrl)

/-! ### Helper lemmas about `_deduplicate_endpoints` -/

lemma dedupGo_key_not_seen {seen : List (String × String)}
    {es : List APIEndpoint} {e : APIEndpoint}
    (h : e ∈ dedupGo seen es) : dedupKey e ∉ seen := by
  induction es generalizing seen with
  | nil => simp [dedupGo] at h
  | cons a rest ih =>
    by_cases ha : dedupKey a ∈ seen
    · rw [dedupGo, if_pos ha] at h
      exact ih h
    · rw [dedupGo, if_neg ha] at h
      rcases List.mem_cons.mp h with rfl | h
      · exact ha
      · have := ih h
        intro hmem
        exact this (List.mem_cons_of_mem _ hmem)

lemma dedupGo_find_first {seen : List (String × String)}
    {es : List APIEndpoint} {e : APIEndpoint}
    (h : e ∈ dedupGo seen es) :
    es.find? (fun x => dedupKey x == dedupKey e) = some e := by
  induction es generalizing seen with
  | nil => simp [dedupGo] at h
  | cons a rest ih =>
    by_cases ha : dedupKey a ∈ seen
    · rw [dedupGo, if_pos ha] at h
      have hb : (dedupKey a == dedupKey e) = false := by
        cases hbv : dedupKey a == dedupKey e
        · rfl
        · exact absurd ((eq_of_beq hbv) ▸ ha) (dedupGo_key_not_seen h)
      simp only [List.find?_cons, hb]
      exact ih h
    · rw [dedupGo, if_neg ha] at h
      rcases List.mem_cons.mp h with rfl | h
      · simp only [List.find?_cons, beq_self_eq_true]
      · have hnotin : dedupKey e ∉ dedupKey a :: seen :=
          dedupGo_key_not_seen h
        have hb : (dedupKey a == dedupKey e) = false := by
          cases hbv : dedupKey a == dedupKey e
          · rfl
          · exfalso
            have hk : dedupKey a = dedupKey e := eq_of_beq hbv
            rw [← hk] at hnotin
            exact hnotin (List.mem_cons_self _ _)
        simp only [List.find?_cons, hb]
        exact ih h

lemma dedupGo_key_complete {seen : List (String × String)}
    {es : List APIEndpoint} {e : APIEndpoint}
    (h : e ∈ es) (hs : dedupKey e ∉ seen) :
    ∃ e', e' ∈ dedupGo seen es ∧ dedupKey e' = dedupKey e := by
  induction es generalizing seen with
  | nil => simp at h
  | cons a rest ih =>
    rcases List.mem_cons.mp h with rfl | h
    · rw [dedupGo, if_neg hs]
      exact ⟨e, List.mem_cons_self _ _, rfl⟩
    · by_cases ha : dedupKey a ∈ seen
      · rw [dedupGo, if_pos ha]
        exact ih h hs
      · rw [dedupGo, if_neg ha]
        by_cases hk : dedupKey e = dedupKey a
        · exact ⟨a, List.mem_cons_self _ _, hk.symm⟩
        · have hs' : dedupKey e ∉ dedupKey a :: seen := by
            intro hmem
            rcases List.mem_cons.mp hmem with hmem | hmem
            · exact hk hmem
            · exact hs hmem
          obtain ⟨e', he', hke'⟩ := ih h hs'
          exact ⟨e', List.mem_cons_of_mem _ he', hke'⟩

lemma dedupGo_keys_nodup (seen : List (String × String))
    (es : List APIEndpoint) :
    ((dedupGo seen es).map dedupKey).Nodup := by
  induction es generalizing seen with
  | nil => simp [dedupGo]
  | cons a rest ih =>
    by_cases ha : dedupKey a ∈ seen
    · rw [dedupGo, if_pos ha]
      exact ih seen
    · rw [dedupGo, if_neg ha]
      rw [List.map_cons, List.nodup_cons]
      refine ⟨?_, ih _⟩
      intro hmem
      obtain ⟨e', he', hke'⟩ := List.mem_map.mp hmem
      have := dedupGo_key_not_seen he'
      exact this (by rw [hke']; exact List.mem_cons_self _ _)

lemma dedupGo_of_nodup {seen : List (String × String)}
    {es : List APIEndpoint}
    (hfresh : ∀ e ∈ es, dedupKey e ∉ seen)
    (hnd : (es.map dedupKey).Nodup) :
    dedupGo seen es = es := by
  induction es generalizing seen with
  | nil => rfl
  | cons a rest ih =>
    rw [List.map_cons, List.nodup_cons] at hnd
    rw [dedupGo, if_neg (hfresh a (List.mem_cons_self _ _))]
    congr 1
    refine ih ?_ hnd.2
    intro e he hmem
    rcases List.mem_cons.mp hmem with hmem | hmem
    · exact hnd.1 (hmem ▸ List.mem_map_of_mem dedupKey he)
    · exact hfresh e (List.mem_cons_of_mem _ he) hmem

/-! ### Concrete inputs used by counterexamples and witnesses -/

/-- A candidate at key `(url, GET)` with confidence 0.5, seen first. -/
def epLow : APIEndpoint :=
  ⟨"http://a.example/api", "GET", [], [], "html_link", 1/2⟩

/-- A second candidate at the same `(url, GET)` key with confidence 0.9. -/
def epHigh : APIEndpoint :=
  ⟨"http://a.example/api", "GET", [], [], "ajax_call", 9/10⟩

/-! ### Claim theorems -/

/-- C1 counterexample: merging two candidates with the same `(url, method)`
key and confidences 0.5 and 0.9 keeps the first-seen entity with confidence
0.5, not the group maximum 0.9 claimed by the spec. -/
theorem dedup_confidence_not_max :
    deduplicateEndpoints [epLow, epHigh] = [epLow] ∧
    epLow.confidence ≠ max epLow.confidence epHigh.confidence := by
  refine ⟨rfl, ?_⟩
  show (1:ℚ)/2 ≠ max ((1:ℚ)/2) ((9:ℚ)/10)
  rw [max_eq_right (by norm_num : (1:ℚ)/2 ≤ 9/10)]
  norm_num

/-- C1 (amended): the merge/deduplicate operation groups candidates by
exact `(url, method)` equality and keeps, for each group, exactly the
first-seen member — all of its fields including its confidence (later
members, and in particular their confidences, are discarded): every output
endpoint is the first input endpoint with its key, and every input key is
represented in the output. -/
theorem dedup_keeps_first_seen (es : List APIEndpoint) :
    (∀ e ∈ deduplicateEndpoints es,
      es.find? (fun x => dedupKey x == dedupKey e) = some e) ∧
    (∀ e ∈ es, ∃ e', e' ∈ deduplicateEndpoints es ∧
      dedupKey e' = dedupKey e) := by
  constructor
  · intro e he
    exact dedupGo_find_first he
  · intro e he
    exact dedupGo_key_complete he (List.not_mem_nil _)

/-- Witness for C1 at a concrete two-element input. -/
theorem dedup_keeps_first_seen_witness :
    [epLow, epHigh].find? (fun x => dedupKey x == dedupKey epLow)
      = some epLow :=
  (dedup_keeps_first_seen [epLow, epHigh]).1 epLow (List.Mem.head _)

/-- C7: the merge/deduplicate operation is idempotent. -/
theorem dedup_idempotent (es : List APIEndpoint) :
    deduplicateEndpoints (deduplicateEndpoints es) = deduplicateEndpoints es :=
  dedupGo_of_nodup (fun _ _ => List.not_mem_nil _) (dedupGo_keys_nodup [] es)

/-- C2 counterexample: an endpoint with confidence 0.6 probed against a
500 response keeps confidence 0.6 — a response with status ≥ 400 does not
raise in `requests`, so the `except` demotion branch never runs for it,
contradicting the claimed `max(0.6 − 0.3, 0.1) = 0.3`. -/
theorem validator_status_ge_400_counterexample :
    validateAdjust (.response 500 "") (6/10) = 6/10 ∧
    (6:ℚ)/10 ≠ max ((6:ℚ)/10 - 3/10) (1/10) := by
  refine ⟨rfl, ?_⟩
  rw [max_eq_left (by norm_num : (1:ℚ)/10 ≤ 6/10 - 3/10)]
  norm_num

/-- C2 (amended): on a response with status < 400 the new confidence is
`min(old + 0.2, 1.0)`, with a further `+0.1` (clamped to 1.0) when the
content-type carries `json`/`xml`/`api`; on a network failure or timeout
(a raised `RequestException`) it is `max(old − 0.3, 0.1)`; on a response
with status ≥ 400 (which does not raise) the confidence is left unchanged.
In particular 0.6 against a 200/`application/json` response yields 0.9,
and 0.6 against a 500 response stays 0.6. -/
theorem validator_confidence_update (c : ℚ) (status : Nat)
    (contentType : String) :
    (status < 400 → hasApiContentType contentType = false →
      validateAdjust (.response status contentType) c = min (c + 2/10) 1) ∧
    (status < 400 → hasApiContentType contentType = true →
      validateAdjust (.response status contentType) c
        = min (min (c + 2/10) 1 + 1/10) 1) ∧
    (400 ≤ status → validateAdjust (.response status contentType) c = c) ∧
    validateAdjust .requestException c = max (c - 3/10) (1/10) ∧
    validateAdjust (.response 200 "application/json") (6/10) = 9/10 ∧
    validateAdjust (.response 500 "") (6/10) = 6/10 := by
  refine ⟨?_, ?_, ?_, rfl, ?_, rfl⟩
  · intro hlt hct
    simp [validateAdjust, hlt, hct]
  · intro hlt hct
    simp [validateAdjust, hlt, hct]
  · intro hge
    simp [validateAdjust, Nat.not_lt.mpr hge]
  · have hjson : hasApiContentType "application/json" = true := by decide
    have hred : validateAdjust (.response 200 "application/json") (6/10)
        = min (min ((6:ℚ)/10 + 2/10) 1 + 1/10) 1 := by
      simp [validateAdjust, hjson]
    rw [hred, min_eq_left (by norm_num : (6:ℚ)/10 + 2/10 ≤ 1),
      min_eq_left (by norm_num : (6:ℚ)/10 + 2/10 + 1/10 ≤ 1)]
    norm_num

/-- Witness for C2: both a plain success and a non-raising error status at
concrete inputs. -/
theorem validator_confidence_update_witness :
    validateAdjust (.response 200 "") (6/10) = min ((6:ℚ)/10 + 2/10) 1 ∧
    validateAdjust (.response 404 "") (6/10) = 6/10 :=
  ⟨(validator_confidence_update (6/10) 200 "").1 (by decide) (by decide),
   (validator_confidence_update (6/10) 404 "").2.2.1 (by decide)⟩

/-- C3 counterexample: validating an endpoint whose confidence is 0 (the
dataclass default) against a 400 response leaves confidence 0, outside the
claimed interval `[0.1, 1.0]` — the claimed invariant fails because a
status ≥ 400 response adjusts nothing. -/
theorem validator_bounds_counterexample :
    validateAdjust (.response 400 "") 0 = 0 ∧
    ¬ (1/10 ≤ validateAdjust (.response 400 "") 0) := by
  refine ⟨rfl, ?_⟩
  have h : validateAdjust (.response 400 "") 0 = 0 := rfl
  rw [h]
  norm_num

/-- C3 (amended): starting from a confidence in `[0, 1]`, the validator's
adjustment lands in `[0.1, 1.0]` after a response with status < 400 and
after a network failure or timeout; a response with status ≥ 400 leaves
the confidence unchanged (so it stays in `[0.1, 1.0]` only if it already
was). No endpoint is ever dropped: the output has one endpoint per input,
preserving url, method and source. -/
theorem validator_bounds_amended (probeOf : APIEndpoint → ProbeResult)
    (es : List APIEndpoint) (c : ℚ) (status : Nat) (contentType : String)
    (h0 : 0 ≤ c) (h1 : c ≤ 1) :
    (status < 400 →
      1/10 ≤ validateAdjust (.response status contentType) c ∧
      validateAdjust (.response status contentType) c ≤ 1) ∧
    (1/10 ≤ validateAdjust .requestException c ∧
      validateAdjust .requestException c ≤ 1) ∧
    (400 ≤ status → validateAdjust (.response status contentType) c = c) ∧
    (validateEndpoints probeOf es).length = es.length ∧
    (∀ e ∈ es, ∃ e', e' ∈ validateEndpoints probeOf es ∧
      e'.url = e.url ∧ e'.method = e.method ∧ e'.source = e.source) := by
  refine ⟨?_, ⟨?_, ?_⟩, ?_, ?_, ?_⟩
  · intro hlt
    have hred : validateAdjust (.response status contentType) c
        = if hasApiContentType contentType then
            min (min (c + 2/10) 1 + 1/10) 1
          else min (c + 2/10) 1 := by
      simp [validateAdjust, hlt]
    rw [hred]
    have hmin0 : (1:ℚ)/10 ≤ min (c + 2/10) 1 :=
      le_min (by linarith) (by norm_num)
    cases hc : hasApiContentType contentType
    · simp only [Bool.false_eq_true, if_false]
      exact ⟨hmin0, min_le_right _ _⟩
    · simp only [if_true]
      exact ⟨le_min (by linarith) (by norm_num), min_le_right _ _⟩
  · show (1:ℚ)/10 ≤ max (c - 3/10) (1/10)
    exact le_max_right _ _
  · show max (c - 3/10) (1/10) ≤ 1
    exact max_le (by linarith) (by norm_num)
  · intro hge
    simp [validateAdjust, Nat.not_lt.mpr hge]
  · simp [validateEndpoints]
  · intro e he
    exact ⟨_, List.mem_map_of_mem _ he, rfl, rfl, rfl⟩

/-- Witness for C3 at confidence 1 and a failing probe. -/
theorem validator_bounds_amended_witness :
    1/10 ≤ validateAdjust ProbeResult.requestException 1 ∧
    validateAdjust ProbeResult.requestException 1 ≤ 1 :=
  (validator_bounds_amended (fun _ => ProbeResult.requestException) [] 1 200
    "" zero_le_one (le_refl 1)).2.1

lemma isPotentialEndpoint_no_pseudo {u : String}
    (h : isPotentialEndpoint u = true) :
    strStartsWith u "javascript:" = false ∧
    strStartsWith u "mailto:" = false := by
  cases hjs : strStartsWith u "javascript:"
  · cases hm : strStartsWith u "mailto:"
    · exact ⟨rfl, rfl⟩
    · rw [isPotentialEndpoint, if_pos (by simp [hm])] at h
      exact absurd h (by simp)
  · rw [isPotentialEndpoint, if_pos (by simp [hjs])] at h
    exact absurd h (by simp)

lemma mem_discoverFromScripts_potential {baseUrl : String}
    {ms : List ScriptMatch} {e : APIEndpoint}
    (h : e ∈ discoverFromScripts baseUrl ms) :
    isPotentialEndpoint e.url = true := by
  obtain ⟨m, _, hsome⟩ := List.mem_filterMap.mp h
  unfold scriptEndpoint at hsome
  by_cases hpot : isPotentialEndpoint (urljoin baseUrl m.capturedUrl) = true
  · rw [if_pos hpot] at hsome
    obtain rfl := Option.some.inj hsome
    exact hpot
  · rw [if_neg hpot] at hsome
    cases hsome

lemma mem_discoverFromAjaxCalls_potential {baseUrl : String}
    {urls : List String} {e : APIEndpoint}
    (h : e ∈ discoverFromAjaxCalls baseUrl urls) :
    isPotentialEndpoint e.url = true := by
  obtain ⟨u, _, hsome⟩ := List.mem_filterMap.mp h
  unfold ajaxEndpoint at hsome
  by_cases hpot : isPotentialEndpoint (urljoin baseUrl u) = true
  · rw [if_pos hpot] at hsome
    obtain rfl := Option.some.inj hsome
    exact hpot
  · rw [if_neg hpot] at hsome
    cases hsome

lemma mem_discoverFromComments_potential {baseUrl : String}
    {urls : List String} {e : APIEndpoint}
    (h : e ∈ discoverFromComments baseUrl urls) :
    isPotentialEndpoint e.url = true := by
  obtain ⟨u, _, hsome⟩ := List.mem_filterMap.mp h
  unfold commentEndpoint at hsome
  by_cases hpot : isPotentialEndpoint (urljoin baseUrl u) = true
  · rw [if_pos hpot] at hsome
    obtain rfl := Option.some.inj hsome
    exact hpot
  · rw [if_neg hpot] at hsome
    cases hsome

/-- C4 counterexample: the forms strategy applies no pseudo-scheme filter,
so a form whose `action` is `javascript:void(0)` is emitted verbatim with
a `javascript:` URL (urljoin leaves foreign-scheme candidates unchanged). -/
theorem forms_emit_javascript_scheme :
    (discoverFromForms "http://a.example"
        [⟨"javascript:void(0)", "get", []⟩]).map (fun e => e.url)
      = ["javascript:void(0)"] ∧
    strStartsWith "javascript:void(0)" "javascript:" = true :=
  ⟨rfl, by decide⟩

/-- C4 (amended): the strategies that pass the joined URL through
`_is_potential_endpoint` — scripts, AJAX calls and comments — never emit a
URL with scheme `javascript:` or `mailto:`; the forms strategy (and the
other unfiltered emission sites) can, e.g. for a form action
`javascript:void(0)`. -/
theorem filtered_extractors_no_pseudo_schemes (baseUrl : String)
    (scriptMs : List ScriptMatch) (ajaxUrls commentUrls : List String) :
    ∀ e ∈ discoverFromScripts baseUrl scriptMs ++
        discoverFromAjaxCalls baseUrl ajaxUrls ++
        discoverFromComments baseUrl commentUrls,
      strStartsWith e.url "javascript:" = false ∧
      strStartsWith e.url "mailto:" = false := by
  intro e he
  rcases List.mem_append.mp he with he | he
  · rcases List.mem_append.mp he with he | he
    · exact isPotentialEndpoint_no_pseudo (mem_discoverFromScripts_potential he)
    · exact isPotentialEndpoint_no_pseudo (mem_discoverFromAjaxCalls_potential he)
  · exact isPotentialEndpoint_no_pseudo (mem_discoverFromComments_potential he)

/-- The endpoint the AJAX strategy emits for captured URL `/api/x` under
base `http://a.example`. -/
def ajaxWitnessEndpoint : APIEndpoint :=
  ⟨"http://a.example/api/x", "GET", [], [], "ajax_call", 9/10⟩

/-- Witness for C4 at a concrete AJAX extraction. -/
theorem filtered_extractors_no_pseudo_schemes_witness :
    strStartsWith ajaxWitnessEndpoint.url "javascript:" = false ∧
    strStartsWith ajaxWitnessEndpoint.url "mailto:" = false :=
  filtered_extractors_no_pseudo_schemes "http://a.example" [] ["/api/x"] []
    ajaxWitnessEndpoint (List.Mem.head _)

/-- The robots.txt body used to exhibit the line-splitting bug: two
`Disallow` directives on separate (real newline) lines. -/
def robotsBody : String := "Disallow: /api/users\nDisallow: /api/admin"

/-- C5: the source splits `response.text` on the two-character literal
backslash-`n` (`split('\\n')` in the Python source) instead of on the
newline character, so a body with two API-matching `Disallow` directives on
separate real lines yields a single endpoint whose URL embeds the rest of
the body, instead of one endpoint per matching directive; splitting on the
newline character (`scanRobotsTxtIntended`, what the spec describes) yields
the two expected endpoints. -/
theorem robots_split_literal_backslash_bug :
    (scanRobotsTxt "http://a.example"
        (.response 200 "text/plain" robotsBody)).map (fun e => e.url)
      = ["http://a.example/api/users\nDisallow: /api/admin"] ∧
    (scanRobotsTxtIntended "http://a.example"
        (.response 200 "text/plain" robotsBody)).map (fun e => e.url)
      = ["http://a.example/api/users", "http://a.example/api/admin"] :=
  ⟨rfl, rfl⟩

lemma swaggerSpecEndpoints_fields {baseUrl : String} {doc : SwaggerDoc}
    {e : APIEndpoint} (h : e ∈ swaggerSpecEndpoints baseUrl doc) :
    e.source = "swagger_spec" ∧ e.confidence = 1 := by
  unfold swaggerSpecEndpoints at h
  obtain ⟨pk, _, hmem⟩ := List.mem_flatMap.mp h
  obtain ⟨m, _, rfl⟩ := List.mem_map.mp hmem
  exact ⟨rfl, rfl⟩

/-- C6: every endpoint emitted from a parsed Swagger/OpenAPI document with
source `swagger_spec` carries confidence exactly 1.0 (the sibling
`swagger_docs` discovery endpoint carries 0.9 and a different source). -/
theorem swagger_spec_confidence_one (baseUrl path : String)
    (fetch : FetchResult) (parsed : Option SwaggerDoc) :
    ∀ e ∈ discoverSwaggerAt baseUrl path fetch parsed,
      e.source = "swagger_spec" → e.confidence = 1 := by
  intro e he hsrc
  cases fetch with
  | requestException => simp [discoverSwaggerAt] at he
  | response status contentType body =>
    unfold discoverSwaggerAt at he
    dsimp only at he
    by_cases hst : status = 200
    · rw [if_pos hst] at he
      rcases List.mem_cons.mp he with rfl | he
      · have hne : ("swagger_docs" : String) ≠ "swagger_spec" := by decide
        exact absurd hsrc hne
      · by_cases hjson :
          strContains path "json" = true ∧
          strStartsWith contentType "application/json" = true
        · rw [if_pos hjson] at he
          cases parsed with
          | some doc => exact (swaggerSpecEndpoints_fields he).2
          | none => simp at he
        · rw [if_neg hjson] at he
          simp at he
    · rw [if_neg hst] at he
      simp at he

/-- A one-path, one-method Swagger document. -/
def swaggerWitnessDoc : SwaggerDoc := ⟨"", [("/pets", ["get"])]⟩

/-- The spec endpoint `discoverSwaggerAt` emits for `swaggerWitnessDoc`. -/
def swaggerWitnessEndpoint : APIEndpoint :=
  ⟨"http://a.example/pets", "GET", [], [], "swagger_spec", 1⟩

/-- Witness for C6 at a concrete parsed document. -/
theorem swagger_spec_confidence_one_witness :
    swaggerWitnessEndpoint.confidence = 1 :=
  swagger_spec_confidence_one "http://a.example" "/swagger.json"
    (.response 200 "application/json" "") (some swaggerWitnessDoc)
    swaggerWitnessEndpoint (List.Mem.tail _ (List.Mem.head _)) rfl

/-- C8: a failed fetch of the target page (exception, timeout, or an HTTP
error status turned into an exception by `raise_for_status`) makes
`discover_endpoints` return the empty list; conversely a per-candidate or
per-probe failure is absorbed locally — the validator keeps every
deduplicated candidate whatever its probe outcome, and a failed
robots/swagger/path probe just yields an empty contribution rather than
an error. -/
theorem discovery_error_handling (extract : String → List APIEndpoint)
    (probeOf : APIEndpoint → ProbeResult) (status : Nat)
    (contentType body baseUrl path url : String)
    (parsed : Option SwaggerDoc) :
    discoverEndpoints .requestException extract probeOf = [] ∧
    (400 ≤ status →
      discoverEndpoints (.response status contentType body) extract probeOf
        = []) ∧
    (status < 400 →
      (discoverEndpoints (.response status contentType body) extract
          probeOf).length
        = (deduplicateEndpoints (extract body)).length) ∧
    scanRobotsTxt baseUrl .requestException = [] ∧
    discoverSwaggerAt baseUrl path .requestException parsed = [] ∧
    testEndpoint url .requestException = none := by
  refine ⟨rfl, ?_, ?_, rfl, rfl, rfl⟩
  · intro hge
    simp [discoverEndpoints, hge]
  · intro hlt
    simp [discoverEndpoints, Nat.not_le.mpr hlt, validateEndpoints]

/-- Witness for C8: an error status on the target page yields an empty
result, while a sub-400 status yields one validated endpoint per
deduplicated candidate even when every probe fails. -/
theorem discovery_error_handling_witness :
    discoverEndpoints (.response 404 "" "") (fun _ => [epLow])
        (fun _ => ProbeResult.requestException) = [] ∧
    (discoverEndpoints (.response 200 "" "") (fun _ => [epLow])
        (fun _ => ProbeResult.requestException)).length
      = (deduplicateEndpoints [epLow]).length :=
  ⟨(discovery_error_handling (fun _ => [epLow])
      (fun _ => ProbeResult.requestException) 404 "" "" "" "" ""
      none).2.1 (by decide),
   (discovery_error_handling (fun _ => [epLow])
      (fun _ => ProbeResult.requestException) 200 "" "" "" "" ""
      none).2.2.1 (by decide)⟩

/-- C9: every endpoint returned by `scan_common_paths` stems from a probe
that answered with status < 400, and carries source `path_scan`, method
`GET` and confidence 0.8 or 0.5 according to the content-type; a probe
that raises or answers with status ≥ 400 contributes nothing. -/
theorem scan_common_paths_spec (baseUrl : String)
    (probeOf : String → ProbeResult) :
    (∀ e ∈ scanCommonPaths baseUrl probeOf,
      e.source = "path_scan" ∧ e.method = "GET" ∧
      ∃ status contentType,
        probeOf e.url = .response status contentType ∧ status < 400 ∧
        e.confidence
          = if hasApiContentType contentType then 8/10 else 5/10) ∧
    (∀ u, testEndpoint u .requestException = none) ∧
    (∀ u status ct, 400 ≤ status →
      testEndpoint u (.response status ct) = none) := by
  refine ⟨?_, fun u => rfl, ?_⟩
  · intro e he
    obtain ⟨p, _, hsome⟩ := List.mem_filterMap.mp he
    cases hpr : probeOf (rstripSlash baseUrl ++ p) with
    | requestException =>
      rw [hpr] at hsome
      exact absurd hsome (by simp [testEndpoint])
    | response s ct =>
      rw [hpr] at hsome
      unfold testEndpoint at hsome
      dsimp only at hsome
      by_cases hlt : s < 400
      · rw [if_pos hlt] at hsome
        obtain rfl := Option.some.inj hsome
        exact ⟨rfl, rfl, s, ct, hpr, hlt, rfl⟩
      · rw [if_neg hlt] at hsome
        cases hsome
  · intro u s ct hge
    simp [testEndpoint, Nat.not_lt.mpr hge]

/-- The endpoint the path scan emits for `/api` under `http://a.example`
when the probe answers 200 with a JSON content-type. -/
def pathScanWitnessEndpoint : APIEndpoint :=
  ⟨"http://a.example/api", "GET", [], [], "path_scan", 8/10⟩

/-- Witness for C9 at a concrete all-200 probe oracle. -/
theorem scan_common_paths_spec_witness :
    pathScanWitnessEndpoint.source = "path_scan" ∧
    pathScanWitnessEndpoint.method = "GET" ∧
    ∃ status contentType,
      (fun _ : String => ProbeResult.response 200 "application/json")
          pathScanWitnessEndpoint.url = .response status contentType ∧
      status < 400 ∧
      pathScanWitnessEndpoint.confidence
        = if hasApiContentType contentType then 8/10 else 5/10 :=
  (scan_common_paths_spec "http://a.example"
    (fun _ => ProbeResult.response 200 "application/json")).1
    pathScanWitnessEndpoint (List.Mem.head _)

/-- C10: `APIEndpoint` construction with `__post_init__` semantics never
leaves `parameters` or `headers` as `None`: an omitted/`None` argument
becomes the empty list / empty dict, and a provided one is kept. -/
theorem apiendpoint_post_init_defaults (url method source : String)
    (confidence : ℚ) (ps : List String) (hs : List (String × String)) :
    (mkAPIEndpoint url method none none source confidence).parameters = []
    ∧ (mkAPIEndpoint url method none none source confidence).headers = []
    ∧ (mkAPIEndpoint url method (some ps) (some hs) source
        confidence).parameters = ps
    ∧ (mkAPIEndpoint url method (some ps) (some hs) source
        confidence).headers = hs :=
  ⟨rfl, rfl, rfl, rfl⟩
